import Mathlib

/-!
Shallow embedding of the reel-code extraction and deduplication engine of
src/rename_card.py, together with theorems checking the natural-language
specification against it.

Strings are modelled as Lean String (a wrapper around List Char).  The source
compiles REEL_PATTERN as a str pattern without the ASCII flag, so its digit
class accepts every Unicode decimal digit (general category Nd); the embedding
carries the full Nd range table of Unicode 15.1, the version shipped with
CPython 3.13.  Python sets of strings are modelled as Finset String.
-/

namespace RenameCard

/-- Characters accepted by the regex character class [A-Z]. -/
def isUpperAZ (c : Char) : Bool := 'A' ≤ c && c ≤ 'Z'

/-- ASCII digits 0-9: the reading of "digit" used by the spec's ReelCode shape
and by the claims.  The regex digit class itself is wider; see isDigitNd. -/
def isDigit09 (c : Char) : Bool := '0' ≤ c && c ≤ '9'

/-- The inclusive code-point ranges of the Unicode decimal digits (general
category Nd) of Unicode 15.1, the table CPython 3.13 ships: 63 runs of ten
script digits plus the fifty mathematical digits at 1D7CE-1D7FF, 680
characters in all. -/
def ndDigitRanges : List (Nat × Nat) :=
  [(0x0030, 0x0039), (0x0660, 0x0669), (0x06F0, 0x06F9), (0x07C0, 0x07C9),
   (0x0966, 0x096F), (0x09E6, 0x09EF), (0x0A66, 0x0A6F), (0x0AE6, 0x0AEF),
   (0x0B66, 0x0B6F), (0x0BE6, 0x0BEF), (0x0C66, 0x0C6F), (0x0CE6, 0x0CEF),
   (0x0D66, 0x0D6F), (0x0DE6, 0x0DEF), (0x0E50, 0x0E59), (0x0ED0, 0x0ED9),
   (0x0F20, 0x0F29), (0x1040, 0x1049), (0x1090, 0x1099), (0x17E0, 0x17E9),
   (0x1810, 0x1819), (0x1946, 0x194F), (0x19D0, 0x19D9), (0x1A80, 0x1A89),
   (0x1A90, 0x1A99), (0x1B50, 0x1B59), (0x1BB0, 0x1BB9), (0x1C40, 0x1C49),
   (0x1C50, 0x1C59), (0xA620, 0xA629), (0xA8D0, 0xA8D9), (0xA900, 0xA909),
   (0xA9D0, 0xA9D9), (0xA9F0, 0xA9F9), (0xAA50, 0xAA59), (0xABF0, 0xABF9),
   (0xFF10, 0xFF19), (0x104A0, 0x104A9), (0x10D30, 0x10D39), (0x11066, 0x1106F),
   (0x110F0, 0x110F9), (0x11136, 0x1113F), (0x111D0, 0x111D9), (0x112F0, 0x112F9),
   (0x11450, 0x11459), (0x114D0, 0x114D9), (0x11650, 0x11659), (0x116C0, 0x116C9),
   (0x11730, 0x11739), (0x118E0, 0x118E9), (0x11950, 0x11959), (0x11C50, 0x11C59),
   (0x11D50, 0x11D59), (0x11DA0, 0x11DA9), (0x11F50, 0x11F59), (0x16A60, 0x16A69),
   (0x16AC0, 0x16AC9), (0x16B50, 0x16B59), (0x1D7CE, 0x1D7FF), (0x1E140, 0x1E149),
   (0x1E2F0, 0x1E2F9), (0x1E4F0, 0x1E4F9), (0x1E950, 0x1E959), (0x1FBF0, 0x1FBF9)]

/-- Characters accepted by the regex digit class: REEL_PATTERN is compiled
from a str without the ASCII flag, so its digit class matches any Unicode
decimal digit, not only 0-9. -/
def isDigitNd (c : Char) : Bool :=
  ndDigitRanges.any fun r => r.1 ≤ c.toNat && c.toNat ≤ r.2

/-- One attempt of REEL_PATTERN = ([A-Z]\d\x7b3\x7d) at the start of a
character list: it consumes exactly one uppercase letter and three digits and
captures those four characters; what follows is irrelevant (the regex has no
anchor and no lookahead after the third digit). -/
def reelMatchAt : List Char → Option (List Char)
  | a :: b :: c :: d :: _ =>
      if isUpperAZ a && isDigitNd b && isDigitNd c && isDigitNd d then some [a, b, c, d]
      else none
  | _ => none

/-- re.search of REEL_PATTERN: try the pattern at each position from the left
and return the first successful match. -/
def reelSearch : List Char → Option (List Char)
  | [] => none
  | c :: cs =>
      match reelMatchAt (c :: cs) with
      | some m => some m
      | none => reelSearch cs

/-- re.findall of REEL_PATTERN: collect every non-overlapping occurrence, left
to right; after a match, scanning resumes right after its last character. -/
def reelFindAll : List Char → List (List Char)
  | a :: b :: c :: d :: rest =>
      if isUpperAZ a && isDigitNd b && isDigitNd c && isDigitNd d
      then [a, b, c, d] :: reelFindAll rest
      else reelFindAll (b :: c :: d :: rest)
  | _ => []

/-- REEL_PATTERN.match on a string (anchored mode, used on filenames at
src/rename_card.py line 641). -/
def REEL_PATTERN_match (s : String) : Option String :=
  (reelMatchAt s.data).map List.asString

/-- REEL_PATTERN.search on a string (unanchored first-match mode, used on XML
tag text at line 517). -/
def REEL_PATTERN_search (s : String) : Option String :=
  (reelSearch s.data).map List.asString

/-- REEL_PATTERN.findall on a string (unanchored all-matches mode, used on
free-text metadata at line 531). -/
def REEL_PATTERN_findall (s : String) : List String :=
  (reelFindAll s.data).map List.asString

/-- Character lists of the shape the regex can capture: exactly one uppercase
ASCII letter followed by exactly three Unicode decimal digits. -/
def isReelCharsNd : List Char → Bool
  | [a, b, c, d] => isUpperAZ a && isDigitNd b && isDigitNd c && isDigitNd d
  | _ => false

/-- Strings of the shape the regex can capture. -/
def isReelCodeNd (s : String) : Bool := isReelCharsNd s.data

/-- Strings of the claims' stated ReelCode shape: one uppercase ASCII letter
followed by exactly three ASCII digits 0-9. -/
def isReelCodeAscii (s : String) : Bool :=
  match s.data with
  | [a, b, c, d] => isUpperAZ a && isDigit09 b && isDigit09 c && isDigit09 d
  | _ => false

/-- Written from the spec text of claim C3, with "digit" read as the spec's
ReelCode shape 0-9: the first four characters of the string are one uppercase
letter followed by three ASCII digits. -/
def specAnchoredOk (s : String) : Bool :=
  match s.data with
  | a :: b :: c :: d :: _ => isUpperAZ a && isDigit09 b && isDigit09 c && isDigit09 d
  | _ => false

/-- The amended anchored-shape predicate: the first four characters are one
uppercase ASCII letter followed by three Unicode decimal digits, the digit
class the source's regex really uses. -/
def specAnchoredOkNd (s : String) : Bool :=
  match s.data with
  | a :: b :: c :: d :: _ => isUpperAZ a && isDigitNd b && isDigitNd c && isDigitNd d
  | _ => false

/-- An ElementTree element: tag name, text content (None is modelled as the
empty string, matching Python truthiness at line 516) and child elements. -/
inductive XmlElem where
  | mk (tag : String) (text : String) (children : List XmlElem)

def XmlElem.tag : XmlElem → String
  | .mk t _ _ => t

def XmlElem.text : XmlElem → String
  | .mk _ x _ => x

def XmlElem.children : XmlElem → List XmlElem
  | .mk _ _ cs => cs

mutual
/-- root.iter(tag): the element itself and all its descendants, in document
order, filtered to the given tag name. -/
def XmlElem.iterTag (t : String) : XmlElem → List XmlElem
  | .mk tag text children =>
      (if tag = t then [XmlElem.mk tag text children] else []) ++ iterTagList t children

def iterTagList (t : String) : List XmlElem → List XmlElem
  | [] => []
  | e :: es => e.iterTag t ++ iterTagList t es
end

/-- Embedding of _parse_xml_metadata (lines 508-523): for each configured tag,
for each element of that tag, if its text is non-empty, REEL_PATTERN.search is
run on the text and the match, when there is one, is added to the set.  Note
the source keeps only the FIRST match of each element's text. -/
def parse_xml_metadata (root : XmlElem) (tags : List String) : Finset String :=
  (tags.flatMap fun t =>
    (root.iterTag t).filterMap fun e =>
      if e.text ≠ "" then REEL_PATTERN_search e.text else none).toFinset

/-- Written from the spec text of claim C1: the same extraction but collecting
ALL occurrences of the pattern in each matching element's text, to be compared
with parse_xml_metadata. -/
def parse_xml_metadata_allMatches (root : XmlElem) (tags : List String) : Finset String :=
  (tags.flatMap fun t =>
    (root.iterTag t).flatMap fun e =>
      if e.text ≠ "" then REEL_PATTERN_findall e.text else []).toFinset

/-- Embedding of _parse_text_metadata (lines 525-537): REEL_PATTERN.findall
over the whole decoded content. -/
def parse_text_metadata (content : String) : Finset String :=
  (REEL_PATTERN_findall content).toFinset

/-- A file on the volume: directory segments below the root, base name, text
content (as decoded with errors ignored), and the result of ET.parse on it
(none when parsing raises, in which case the file is skipped). -/
structure FSFile where
  dirs : List String
  name : String
  content : String
  xml : Option XmlElem

/-- A mounted volume: the files below its root.  Directories are implicit in
the dirs segments. -/
abbrev Volume := List FSFile

/-- Single-segment fnmatch-style matching as used by pathlib glob: only the
wildcards * and ? are special; every other character, including braces and
commas, matches literally.  (No configured pattern uses character classes, so
[seq] is not modelled.)  The fuel argument only bounds the recursion depth;
one unit is consumed per step and the initial fuel below always suffices. -/
def fnmatchFuel : Nat → List Char → List Char → Bool
  | 0, _, _ => false
  | _ + 1, [], s => s.isEmpty
  | fuel + 1, '*' :: ps, s =>
      fnmatchFuel fuel ps s ||
        (match s with
         | [] => false
         | _ :: cs => fnmatchFuel fuel ('*' :: ps) cs)
  | fuel + 1, '?' :: ps, s =>
      (match s with
       | [] => false
       | _ :: cs => fnmatchFuel fuel ps cs)
  | fuel + 1, p :: ps, s =>
      (match s with
       | [] => false
       | c :: cs => (p = c) && fnmatchFuel fuel ps cs)

def fnmatchChars (p s : List Char) : Bool :=
  fnmatchFuel (p.length + s.length + 1) p s

/-- Split a pattern or path on the slash separator. -/
def splitSlash : List Char → List (List Char)
  | [] => [[]]
  | '/' :: rest => [] :: splitSlash rest
  | c :: rest =>
      match splitSlash rest with
      | [] => [[c]]
      | seg :: segs => (c :: seg) :: segs

/-- A relative glob pattern matches a path when they have the same number of
segments and each pattern segment fnmatches the corresponding path segment. -/
def segsMatch : List (List Char) → List (List Char) → Bool
  | [], [] => true
  | p :: ps, q :: qs => fnmatchChars p q && segsMatch ps qs
  | _, _ => false

def globMatch (pattern : String) (f : FSFile) : Bool :=
  segsMatch (splitSlash pattern.data) ((f.dirs.map String.data) ++ [f.name.data])

/-- volume_path.glob(pattern): the files below the root whose relative path
matches the pattern. -/
def globFiles (vol : Volume) (pattern : String) : List FSFile :=
  vol.filter (globMatch pattern)

/-- How a metadata source locates its files: a list of exact filenames to look
up directly under the root, or a glob pattern relative to the root. -/
inductive MetaLocate where
  | files (names : List String)
  | pat (pattern : String)

/-- One entry of METADATA_CONFIG. -/
structure MetaSource where
  name : String
  locate : MetaLocate
  tags : List String
  is_text : Bool

/-- Embedding of METADATA_CONFIG (lines 28-49).  The RED pattern contains the
literal characters brace, R, D, C, comma, R, M, D, brace, exactly as in the
source string. -/
def METADATA_CONFIG : List MetaSource :=
  [⟨"Sony XDCAM", .files ["MEDIAPRO.XML", "DISCMETA.XML"],
      ["ReelName", "ClipName", "Title", "Name"], false⟩,
   ⟨"Canon", .pat "CANON/*/CLIPINFO.XML", ["ReelName", "ClipName"], false⟩,
   ⟨"Panasonic", .pat "CONTENTS/CLIP/*/CLIPINFO.XML", ["ReelName", "ClipName"], false⟩,
   ⟨"RED", .pat "*.\x7bRDC,RMD\x7d", [], true⟩]

/-- ET.parse then _parse_xml_metadata; a file that fails to parse contributes
nothing (the exception is caught and logged at line 521). -/
def parseFileXml (f : FSFile) (tags : List String) : Finset String :=
  match f.xml with
  | none => ∅
  | some root => parse_xml_metadata root tags

/-- (volume_path / filename).exists(): the file with that exact name directly
under the root, when present. -/
def findRootFile (vol : Volume) (filename : String) : Option FSFile :=
  vol.find? fun f => f.dirs.isEmpty && f.name = filename

/-- The codes one METADATA_CONFIG entry contributes in
extract_reel_from_metadata (lines 487-504). -/
def extractFromSource (vol : Volume) (src : MetaSource) : Finset String :=
  match src.locate with
  | .files names =>
      (names.map fun n =>
        match findRootFile vol n with
        | some f => parseFileXml f src.tags
        | none => ∅).foldr (· ∪ ·) ∅
  | .pat p =>
      ((globFiles vol p).map fun f =>
        if src.is_text then parse_text_metadata f.content
        else parseFileXml f src.tags).foldr (· ∪ ·) ∅

/-- Embedding of extract_reel_from_metadata (lines 483-506): the union over
all configured sources. -/
def extract_reel_from_metadata (vol : Volume) : Finset String :=
  (METADATA_CONFIG.map (extractFromSource vol)).foldr (· ∪ ·) ∅

/-- Embedding of VIDEO_EXTENSIONS (line 23). -/
def VIDEO_EXTENSIONS : List String :=
  [".mxf", ".mov", ".mp4", ".r3d", ".ari", ".braw"]

/-- file.startswith of the dot character (line 637). -/
def startsWithDot (s : String) : Bool :=
  match s.data with
  | '.' :: _ => true
  | _ => false

/-- Index of the last dot in a character list, when any. -/
def rfindDot : List Char → Option Nat
  | [] => none
  | c :: cs =>
      match rfindDot cs with
      | some i => some (i + 1)
      | none => if c = '.' then some 0 else none

/-- Path(file).suffix: the substring from the last dot, provided that dot is
neither the first nor the last character; otherwise the empty string. -/
def pathSuffix (s : String) : String :=
  match rfindDot s.data with
  | some i => if 0 < i && i + 1 < s.data.length then ⟨s.data.drop i⟩ else ""
  | none => ""

/-- str.lower restricted to ASCII, which covers every recognized extension. -/
def asciiLower (s : String) : String := ⟨s.data.map Char.toLower⟩

/-- The filter applied to each walked filename at lines 637-639: not hidden,
and its lowercased suffix is a recognized video extension. -/
def isVideoFile (filename : String) : Bool :=
  !startsWithDot filename && VIDEO_EXTENSIONS.contains (asciiLower (pathSuffix filename))

/-- The filenames appended to self.video_files by the walk (lines 635-640). -/
def video_files_of (vol : Volume) : List String :=
  (vol.map FSFile.name).filter isVideoFile

/-- The codes added from filenames by the anchored match at lines 641-643. -/
def filename_reels (vol : Volume) : Finset String :=
  ((video_files_of vol).filterMap REEL_PATTERN_match).toFinset

/-- The mutable fields of CardRenamerApp touched by an analysis pass. -/
structure AppState where
  reel_history : Finset String
  last_reel : String
  video_files : List String
  reel_numbers : Finset String

/-- What one analysis pass produces: the updated state, the duplicate set
computed at line 650, and the sorted candidate sequence computed at line 656
for presentation. -/
structure AnalysisOutcome where
  state : AppState
  duplicates : Finset String
  sorted_reels : List String

/-- Embedding of _analyze_volume (lines 614-659): metadata extraction, the
filename scan, their union into self.reel_numbers, the intersection with
self.reel_history, and the sorted presentation sequence. -/
def analyze_volume (st : AppState) (vol : Volume) : AnalysisOutcome :=
  let metadata_reels := extract_reel_from_metadata vol
  let reels := metadata_reels ∪ filename_reels vol
  { state := { st with video_files := video_files_of vol, reel_numbers := reels },
    duplicates := reels ∩ st.reel_history,
    sorted_reels := Finset.sort (· ≤ ·) reels }

/-- The collision flag expression of line 650: self.reel_numbers intersected
with self.reel_history. -/
def flagDuplicates (reel_numbers reel_history : Finset String) : Finset String :=
  reel_numbers ∩ reel_history

/-- Embedding of check_reel_duplicate (lines 331-333): membership in the
history set. -/
def check_reel_duplicate (reel : String) (reel_history : Finset String) : Bool :=
  decide (reel ∈ reel_history)

/-- The durable JSON record: both keys are optional since load_config uses
dict.get with defaults (lines 73-74). -/
structure ConfigRecord where
  last_reel : Option String
  reel_history : Option (List String)

/-- The on-disk condition of the config file: missing, unparsable, or a parsed
record. -/
inductive DiskFile where
  | missing
  | corrupt
  | valid (record : ConfigRecord)

/-- Embedding of _load_json_file (lines 394-402): a missing file or any
exception during reading or parsing yields the default empty record. -/
def load_json_file : DiskFile → ConfigRecord
  | .missing => ⟨none, none⟩
  | .corrupt => ⟨none, none⟩
  | .valid r => r

/-- The history-relevant in-memory state: last_reel and reel_history. -/
structure HistoryState where
  last_reel : String
  reel_history : Finset String

/-- Embedding of load_config plus the reads at lines 73-74:
config.get with default empty string for last_reel, set(config.get(..., []))
for reel_history. -/
def load_history (d : DiskFile) : HistoryState :=
  let config := load_json_file d
  ⟨config.last_reel.getD "", (config.reel_history.getD []).toFinset⟩

/-- Embedding of save_config (lines 417-421): the record written to disk.
Python enumerates the set in unspecified order; the sorted enumeration stands
in for it, and every property stated below is insensitive to that order. -/
def save_config (st : HistoryState) : ConfigRecord :=
  ⟨some st.last_reel, some (Finset.sort (· ≤ ·) st.reel_history)⟩

/-- The commit after a confirmed successful rename (lines 749-751):
save_last_reel followed by add_reel_to_history. -/
def record_reel (code : String) (st : HistoryState) : HistoryState :=
  ⟨code, insert code st.reel_history⟩

/-- Embedding of clear_history (lines 320-329) on the confirmed path:
reel_history.clear() followed by save_config; last_reel is not touched. -/
def clear_history (st : HistoryState) : HistoryState :=
  ⟨st.last_reel, ∅⟩

/-- A structured metadata element whose text embeds two distinct codes. -/
def xmlTwoCodes : XmlElem := .mk "ReelName" "A001 B002" []

/-- An empty app state. -/
def stEmpty : AppState := ⟨∅, "", [], ∅⟩

/-- A volume holding one media file whose name starts with a reel code. -/
def volSimple : Volume := [⟨[], "A001_clip01.mov", "", none⟩]

/-- A volume holding RED-style sidecar files directly under the root. -/
def volRed : Volume :=
  [⟨[], "A001.RMD", "reel A001", none⟩, ⟨[], "B002.RDC", "reel B002", none⟩]

/-- A volume holding a file whose name ends in the literal characters of the
RED pattern's brace group. -/
def volRedLiteral : Volume := [⟨[], "CLIP.\x7bRDC,RMD\x7d", "reel A001", none⟩]

/-- A volume holding one media file whose name starts with an uppercase letter
followed by three Arabic-Indic digits (Unicode decimal digits outside 0-9). -/
def volUnicode : Volume := [⟨[], "A١٢٣_clip.mov", "", none⟩]

/-! ## Auxiliary lemmas -/

lemma asString_data (l : List Char) : (List.asString l).data = l := rfl

lemma isDigitNd_of_isDigit09 {c : Char} (h : isDigit09 c = true) : isDigitNd c = true := by
  simp only [isDigit09, Bool.and_eq_true, decide_eq_true_eq] at h
  have h1 : 0x30 ≤ c.toNat := h.1
  have h2 : c.toNat ≤ 0x39 := h.2
  unfold isDigitNd
  rw [List.any_eq_true]
  exact ⟨(0x30, 0x39), by decide, by simp [h1, h2]⟩

lemma reelMatchAt_shape {cs m : List Char} (h : reelMatchAt cs = some m) :
    isReelCharsNd m = true ∧ m = cs.take 4 ∧ m.length = 4 := by
  rcases cs with _ | ⟨a, cs⟩
  · simp [reelMatchAt] at h
  rcases cs with _ | ⟨b, cs⟩
  · simp [reelMatchAt] at h
  rcases cs with _ | ⟨c, cs⟩
  · simp [reelMatchAt] at h
  rcases cs with _ | ⟨d, cs⟩
  · simp [reelMatchAt] at h
  simp only [reelMatchAt, Option.ite_none_right_eq_some, Option.some.injEq] at h
  obtain ⟨hg, rfl⟩ := h
  exact ⟨by simpa [isReelCharsNd] using hg, rfl, rfl⟩

lemma reelSearch_shape {cs m : List Char} (h : reelSearch cs = some m) :
    isReelCharsNd m = true := by
  induction cs with
  | nil => simp [reelSearch] at h
  | cons c cs ih =>
      cases hm : reelMatchAt (c :: cs) with
      | some a =>
          simp only [reelSearch, hm, Option.some.injEq] at h
          exact h ▸ (reelMatchAt_shape hm).1
      | none =>
          simp only [reelSearch, hm] at h
          exact ih h

lemma reelFindAll_shape : ∀ (cs m : List Char), m ∈ reelFindAll cs → isReelCharsNd m = true
  | [], m, h => by simp [reelFindAll] at h
  | [_], m, h => by simp [reelFindAll] at h
  | [_, _], m, h => by simp [reelFindAll] at h
  | [_, _, _], m, h => by simp [reelFindAll] at h
  | a :: b :: c :: d :: rest, m, h => by
      by_cases hg : (isUpperAZ a && isDigitNd b && isDigitNd c && isDigitNd d) = true
      · rw [reelFindAll, if_pos hg] at h
        rcases List.mem_cons.mp h with rfl | h2
        · simpa [isReelCharsNd] using hg
        · exact reelFindAll_shape rest m h2
      · rw [reelFindAll, if_neg hg] at h
        exact reelFindAll_shape (b :: c :: d :: rest) m h

lemma isReelCodeNd_of_match {s r : String} (h : REEL_PATTERN_match s = some r) :
    isReelCodeNd r = true := by
  obtain ⟨m, hm, rfl⟩ := Option.map_eq_some'.mp h
  exact (reelMatchAt_shape hm).1

lemma isReelCodeNd_of_search {s r : String} (h : REEL_PATTERN_search s = some r) :
    isReelCodeNd r = true := by
  obtain ⟨m, hm, rfl⟩ := Option.map_eq_some'.mp h
  exact reelSearch_shape hm

lemma isReelCodeNd_of_mem_findall {s r : String} (h : r ∈ REEL_PATTERN_findall s) :
    isReelCodeNd r = true := by
  obtain ⟨m, hm, rfl⟩ := List.mem_map.mp h
  exact reelFindAll_shape _ _ hm

lemma mem_foldr_union {β : Type} [DecidableEq β] (l : List (Finset β)) (r : β) :
    r ∈ l.foldr (· ∪ ·) ∅ ↔ ∃ s ∈ l, r ∈ s := by
  induction l with
  | nil => simp
  | cons a t ih => simp [List.foldr, ih]

lemma mem_parse_xml_metadata {root : XmlElem} {tags : List String} {r : String} :
    r ∈ parse_xml_metadata root tags ↔
      ∃ t ∈ tags, ∃ e ∈ root.iterTag t, e.text ≠ "" ∧ REEL_PATTERN_search e.text = some r := by
  unfold parse_xml_metadata
  rw [List.mem_toFinset]
  simp only [List.mem_flatMap, List.mem_filterMap]
  constructor
  · rintro ⟨t, ht, e, he, hf⟩
    by_cases hx : e.text = ""
    · rw [hx] at hf
      simp at hf
    · rw [if_pos hx] at hf
      exact ⟨t, ht, e, he, hx, hf⟩
  · rintro ⟨t, ht, e, he, hx, hs⟩
    exact ⟨t, ht, e, he, by rw [if_pos hx]; exact hs⟩

lemma isReelCodeNd_of_mem_parse_text {content : String} {r : String}
    (h : r ∈ parse_text_metadata content) : isReelCodeNd r = true := by
  unfold parse_text_metadata at h
  rw [List.mem_toFinset] at h
  exact isReelCodeNd_of_mem_findall h

lemma isReelCodeNd_of_mem_parseFileXml {f : FSFile} {tags : List String} {r : String}
    (h : r ∈ parseFileXml f tags) : isReelCodeNd r = true := by
  unfold parseFileXml at h
  cases hx : f.xml with
  | none => rw [hx] at h; simp at h
  | some root =>
      rw [hx] at h
      obtain ⟨t, _, e, _, _, hs⟩ := mem_parse_xml_metadata.mp h
      exact isReelCodeNd_of_search hs

lemma isReelCodeNd_of_mem_extractFromSource {vol : Volume} {src : MetaSource} {r : String}
    (h : r ∈ extractFromSource vol src) : isReelCodeNd r = true := by
  obtain ⟨nm, loc, tags, istext⟩ := src
  cases loc with
  | files names =>
      obtain ⟨s, hs, hrs⟩ := (mem_foldr_union _ _).mp h
      obtain ⟨n, _, rfl⟩ := List.mem_map.mp hs
      cases hf : findRootFile vol n with
      | none => rw [hf] at hrs; simp at hrs
      | some f =>
          rw [hf] at hrs
          exact isReelCodeNd_of_mem_parseFileXml hrs
  | pat p =>
      obtain ⟨s, hs, hrs⟩ := (mem_foldr_union _ _).mp h
      obtain ⟨f, _, rfl⟩ := List.mem_map.mp hs
      by_cases hb : istext = true
      · rw [hb] at hrs
        simp only [if_true] at hrs
        exact isReelCodeNd_of_mem_parse_text hrs
      · rw [Bool.not_eq_true] at hb
        rw [hb] at hrs
        simp only [Bool.false_eq_true, if_false] at hrs
        exact isReelCodeNd_of_mem_parseFileXml hrs

lemma isReelCodeNd_of_mem_extract {vol : Volume} {r : String}
    (h : r ∈ extract_reel_from_metadata vol) : isReelCodeNd r = true := by
  unfold extract_reel_from_metadata at h
  obtain ⟨s, hs, hrs⟩ := (mem_foldr_union _ _).mp h
  obtain ⟨src, _, rfl⟩ := List.mem_map.mp hs
  exact isReelCodeNd_of_mem_extractFromSource hrs

lemma isReelCodeNd_of_mem_filename_reels {vol : Volume} {r : String}
    (h : r ∈ filename_reels vol) : isReelCodeNd r = true := by
  unfold filename_reels at h
  rw [List.mem_toFinset] at h
  obtain ⟨s, _, hm⟩ := List.mem_filterMap.mp h
  exact isReelCodeNd_of_match hm

/-! ## Claims -/

/-- C1, counterexample: structured extraction does NOT collect all occurrences
of the pattern in a matching element's text.  An element tagged ReelName whose
text is "A001 B002" contributes only A001; B002 is among all matches of that
text but is absent from the extracted set. -/
theorem c1_counterexample_second_match_dropped :
    "B002" ∈ parse_xml_metadata_allMatches xmlTwoCodes ["ReelName"] ∧
    "B002" ∉ parse_xml_metadata xmlTwoCodes ["ReelName"] := by decide

/-- C1, amended: for every descendant element whose tag is in the configured
tag list and whose text is non-empty, structured extraction collects only the
FIRST occurrence of the reel-code pattern in that text; the returned set
equals the set of these first matches over all matching elements. -/
theorem c1_xml_extraction_collects_first_match (root : XmlElem) (tags : List String)
    (r : String) :
    r ∈ parse_xml_metadata root tags ↔
      ∃ t ∈ tags, ∃ e ∈ root.iterTag t, e.text ≠ "" ∧ REEL_PATTERN_search e.text = some r :=
  mem_parse_xml_metadata

/-- C2, counterexample: a position where one uppercase letter is followed by
three digits DOES produce a match even when a fourth digit immediately
follows; "A0011_clip.mov" yields the reel code A001 in the anchored mode, in
the unanchored first-match mode and in the unanchored all-matches mode. -/
theorem c2_counterexample_fourth_digit_still_matches :
    REEL_PATTERN_match "A0011_clip.mov" = some "A001" ∧
    REEL_PATTERN_search "A0011_clip.mov" = some "A001" ∧
    REEL_PATTERN_findall "A0011_clip.mov" = ["A001"] := by decide

/-- C2, amended: at a candidate position where one uppercase letter is
followed by three digits, a fourth digit immediately following does not
invalidate the match; both the anchored attempt and the unanchored search
succeed there and return the four characters formed by the letter and the
first three digits. -/
theorem c2_fourth_digit_does_not_invalidate (a b c d e : Char) (rest : List Char)
    (ha : isUpperAZ a = true) (hb : isDigit09 b = true) (hc : isDigit09 c = true)
    (hd : isDigit09 d = true) (_he : isDigit09 e = true) :
    reelMatchAt (a :: b :: c :: d :: e :: rest) = some [a, b, c, d] ∧
    reelSearch (a :: b :: c :: d :: e :: rest) = some [a, b, c, d] := by
  have hm : reelMatchAt (a :: b :: c :: d :: e :: rest) = some [a, b, c, d] := by
    simp [reelMatchAt, ha, isDigitNd_of_isDigit09 hb, isDigitNd_of_isDigit09 hc,
      isDigitNd_of_isDigit09 hd]
  exact ⟨hm, by simp only [reelSearch, hm]⟩

/-- C2, witness for the amended theorem at the concrete input A0011. -/
theorem c2_fourth_digit_witness :
    reelMatchAt ('A' :: '0' :: '0' :: '1' :: '1' :: []) = some ['A', '0', '0', '1'] ∧
    reelSearch ('A' :: '0' :: '0' :: '1' :: '1' :: []) = some ['A', '0', '0', '1'] :=
  c2_fourth_digit_does_not_invalidate 'A' '0' '0' '1' '1' []
    (by decide) (by decide) (by decide) (by decide) (by decide)

/-- C3, counterexample: the claimed iff is false of the program.  The regex
digit class is not restricted to 0-9, so the anchored match succeeds on a
filename whose first four characters are an uppercase letter followed by three
Arabic-Indic digits, which are not digits 0-9. -/
theorem c3_counterexample_unicode_digit_matches :
    REEL_PATTERN_match "A١٢٣_clip.mov" = some "A١٢٣" ∧
    specAnchoredOk "A١٢٣_clip.mov" = false := by decide

/-- C3 (amended): the anchored match succeeds exactly when the first four
characters of the string are one uppercase ASCII letter followed by three
Unicode decimal digits (the digit class of a str regex without the ASCII
flag), and a successful match returns exactly those first four characters (it
never extends past the fourth character). -/
theorem c3_anchored_match_first_four (s : String) :
    ((REEL_PATTERN_match s).isSome = true ↔ specAnchoredOkNd s = true) ∧
    ∀ m, REEL_PATTERN_match s = some m → m.data = s.data.take 4 ∧ m.length = 4 := by
  constructor
  · unfold REEL_PATTERN_match specAnchoredOkNd
    rw [Option.isSome_map']
    rcases hs : s.data with _ | ⟨a, _ | ⟨b, _ | ⟨c, _ | ⟨d, rest⟩⟩⟩⟩ <;>
      simp [reelMatchAt]
  · intro m hm
    obtain ⟨mc, hmc, rfl⟩ := Option.map_eq_some'.mp hm
    obtain ⟨_, h1, h2⟩ := reelMatchAt_shape hmc
    exact ⟨by rw [asString_data, h1], h2⟩

/-- C3, witness at the concrete input A0011_clip.mov, whose anchored match is
A001. -/
theorem c3_anchored_match_witness :
    ("A001" : String).data = ("A0011_clip.mov" : String).data.take 4 ∧
    ("A001" : String).length = 4 :=
  (c3_anchored_match_first_four "A0011_clip.mov").2 "A001" (by decide)

/-- C4: the claim is right and the code is wrong.  pathlib glob has no brace
alternation, so the configured RED pattern matches its brace group literally:
files ending in .RMD or .RDC directly under the root are never located and
their contents are never read (the extraction yields nothing for them), while
a file literally carrying the brace group in its name IS located and read as
text. -/
theorem c4_red_brace_alternation_not_supported :
    (globFiles volRed "*.\x7bRDC,RMD\x7d").map FSFile.name = [] ∧
    extract_reel_from_metadata volRed = ∅ ∧
    (globFiles volRedLiteral "*.\x7bRDC,RMD\x7d").map FSFile.name = ["CLIP.\x7bRDC,RMD\x7d"] ∧
    extract_reel_from_metadata volRedLiteral = {"A001"} := by decide

/-- C5: the collision check is the pure set intersection of the candidate set
with the history; it is empty whenever either side is empty; the analysis pass
computes exactly that intersection and leaves both the history and the last
assigned code unchanged; and the single-code lookup returns true exactly on
membership and has no effect on any state. -/
theorem c5_collision_flag_pure_intersection :
    (∀ S H : Finset String, flagDuplicates S H = S ∩ H) ∧
    (∀ H : Finset String, flagDuplicates ∅ H = ∅) ∧
    (∀ S : Finset String, flagDuplicates S ∅ = ∅) ∧
    (∀ (st : AppState) (vol : Volume),
      (analyze_volume st vol).duplicates =
          flagDuplicates (analyze_volume st vol).state.reel_numbers st.reel_history ∧
        (analyze_volume st vol).state.reel_history = st.reel_history ∧
        (analyze_volume st vol).state.last_reel = st.last_reel) ∧
    (∀ (r : String) (H : Finset String), check_reel_duplicate r H = true ↔ r ∈ H) := by
  refine ⟨fun S H => rfl, fun H => Finset.empty_inter H, fun S => Finset.inter_empty S,
    fun st vol => ⟨rfl, rfl, rfl⟩, fun r H => ?_⟩
  simp [check_reel_duplicate]

/-- C5, witness at a concrete code and history. -/
theorem c5_collision_flag_witness :
    check_reel_duplicate "A001" ({"A001"} : Finset String) = true ↔
      "A001" ∈ ({"A001"} : Finset String) :=
  c5_collision_flag_pure_intersection.2.2.2.2 "A001" {"A001"}

/-- C6: the presented candidate sequence is strictly sorted in ascending
lexicographic order (hence its codes are distinct), its members are exactly
the union of the metadata-derived and the filename-derived candidates, and the
analysis is deterministic: the same inputs give the same outcome. -/
theorem c6_resolver_sorted_and_reproducible (st : AppState) (vol : Volume) :
    List.Sorted (· < ·) (analyze_volume st vol).sorted_reels ∧
    (∀ r, r ∈ (analyze_volume st vol).sorted_reels ↔
        r ∈ extract_reel_from_metadata vol ∨ r ∈ filename_reels vol) ∧
    analyze_volume st vol = analyze_volume st vol := by
  refine ⟨Finset.sort_sorted_lt _, fun r => ?_, rfl⟩
  show r ∈ Finset.sort (· ≤ ·) (extract_reel_from_metadata vol ∪ filename_reels vol) ↔ _
  rw [Finset.mem_sort, Finset.mem_union]

/-- C7: writing the history record and reading it back reproduces the same
state: the same all-assigned set and the same last-assigned value.  In
particular recording E005 and reloading from the durable form yields a state
that contains E005 and whose last-assigned value is E005. -/
theorem c7_history_roundtrip (st : HistoryState) :
    load_history (.valid (save_config st)) = st ∧
    check_reel_duplicate "E005"
        (load_history (.valid (save_config (record_reel "E005" st)))).reel_history = true ∧
    (load_history (.valid (save_config (record_reel "E005" st)))).last_reel = "E005" := by
  have key : ∀ st₀ : HistoryState, load_history (.valid (save_config st₀)) = st₀ := by
    intro st₀
    cases st₀ with
    | mk l hist =>
        simp only [load_history, save_config, load_json_file, Option.getD_some,
          HistoryState.mk.injEq]
        exact ⟨trivial, Finset.sort_toFinset _ _⟩
  refine ⟨key st, ?_, ?_⟩
  · rw [key (record_reel "E005" st)]
    simp [check_reel_duplicate, record_reel]
  · rw [key (record_reel "E005" st)]
    rfl

/-- C8: clearing the history empties the all-assigned set (so no code is
contained any more), leaves the last-assigned value exactly as it was, and the
persisted-and-reloaded state is that same cleared state. -/
theorem c8_clear_history_frame (st : HistoryState) (c : String) :
    (clear_history st).reel_history = ∅ ∧
    (clear_history st).last_reel = st.last_reel ∧
    check_reel_duplicate c (clear_history st).reel_history = false ∧
    load_history (.valid (save_config (clear_history st))) = ⟨st.last_reel, ∅⟩ := by
  refine ⟨rfl, rfl, by simp [check_reel_duplicate, clear_history], ?_⟩
  simp only [clear_history, load_history, save_config, load_json_file, Option.getD_some,
    HistoryState.mk.injEq]
  exact ⟨trivial, by rw [Finset.sort_empty]; rfl⟩

/-- C9: loading the history store is a total function; a missing file and an
unparsable file both yield the empty record (empty history, empty last
assigned) instead of an error. -/
theorem c9_load_missing_or_corrupt_is_empty :
    load_history .missing = ⟨"", ∅⟩ ∧ load_history .corrupt = ⟨"", ∅⟩ :=
  ⟨rfl, rfl⟩

/-- C10, counterexample: the invariant as stated is false.  A media filename
starting with an uppercase letter and three Arabic-Indic digits puts the
candidate A١٢٣ into the set, and that code is not one uppercase letter
followed by three decimal digits 0-9. -/
theorem c10_counterexample_unicode_candidate :
    "A١٢٣" ∈ (analyze_volume stEmpty volUnicode).state.reel_numbers ∧
    isReelCodeAscii "A١٢٣" = false := by decide

/-- C10 (amended): every code placed into the candidate set by an analysis
pass, from structured metadata, free-text metadata or a filename, is a
four-character string of one uppercase ASCII letter followed by exactly three
Unicode decimal digits; no code of any other shape or length is ever added. -/
theorem c10_candidates_have_reel_shape (st : AppState) (vol : Volume) (r : String)
    (hr : r ∈ (analyze_volume st vol).state.reel_numbers) : isReelCodeNd r = true := by
  have hmem : r ∈ extract_reel_from_metadata vol ∪ filename_reels vol := hr
  rcases Finset.mem_union.mp hmem with h | h
  · exact isReelCodeNd_of_mem_extract h
  · exact isReelCodeNd_of_mem_filename_reels h

/-- C10, witness: on a volume with one media file named A001_clip01.mov the
candidate set holds A001, which has the captured shape. -/
theorem c10_candidates_witness : isReelCodeNd "A001" = true :=
  c10_candidates_have_reel_shape stEmpty volSimple "A001" (by decide)

end RenameCard
